import Mathlib

/-!
Verification development for the METEK sonic3D sampler plugin (`app/app.py`).

The embedding models the byte-level TCP line framing, the semicolon record
parser, the TCP authentication handshake, the publishing adapter and the
acquisition loop of the source file. Bytes are modelled as natural numbers
(the wire protocol is ASCII text). Python `float` conversion is an external
library call; it is modelled as an abstract parameter
`toFloat : List Nat -> Option V` so every theorem about the parser holds for
any float semantics, and witnesses instantiate it with concrete functions.
-/

namespace Sonic3D

/-! ### TCP line framing (`DeviceConnection.read_and_parse_data`, lines 60-66)

The source keeps a byte buffer and, while the buffer does not contain the
two-byte terminator CR LF, appends the result of one `recv` call; it then
splits the buffer at the first occurrence of the terminator.  A `recv`
schedule is modelled as a list of chunks; running out of chunks models a
read that blocks forever (result `none`). -/

/-- Split a byte list at the first occurrence of the two-byte terminator
CR LF (13, 10), returning the bytes before and after it; `none` when the
terminator does not occur.  Models Python `buffer.split(b"\r\n", 1)`
(and `b"\r\n" in buffer` is `Option.isSome` of this). -/
def splitCRLF : List Nat → Option (List Nat × List Nat)
  | [] => none
  | b :: rest =>
    if b = 13 ∧ rest.head? = some 10 then some ([], rest.tail)
    else (splitCRLF rest).map (fun p => (b :: p.1, p.2))

/-- Concatenation of a list of received chunks. -/
def joinAll : List (List Nat) → List Nat
  | [] => []
  | c :: cs => c ++ joinAll cs

/-- The framing loop of lines 62-65: while no terminator is in the buffer,
append the next received chunk; once the terminator is present, split at
its first occurrence.  Returns the extracted line, the new buffer state and
the chunks that were not consumed, or `none` when the schedule of receive
results is exhausted before a terminator appears (a blocked read). -/
def extractLine : List (List Nat) → List Nat → Option (List Nat × List Nat × List (List Nat))
  | [], buf => (splitCRLF buf).map (fun p => (p.1, p.2, ([] : List (List Nat))))
  | c :: cs, buf =>
    match splitCRLF buf with
    | some p => some (p.1, p.2, c :: cs)
    | none => extractLine cs (buf ++ c)

/-- The observable framing outcome starting from an empty buffer: the
extracted line together with all retained bytes (buffer state followed by
the not-yet-consumed receive chunks, which the socket still holds for the
next extraction call). -/
def frameResult (chunks : List (List Nat)) : Option (List Nat × List Nat) :=
  (extractLine chunks []).map (fun t => (t.1, t.2.1 ++ joinAll t.2.2))

/-! ### Record parsing (`read_and_parse_data`, lines 59, 66, 70-79) -/

/-- Python whitespace bytes removed by `str.rstrip` (ASCII range). -/
def isPyWhite (b : Nat) : Bool :=
  b = 32 ∨ b = 9 ∨ b = 10 ∨ b = 13 ∨ b = 11 ∨ b = 12

/-- Trailing-whitespace trim, modelling `str.rstrip()`. -/
def rstrip (l : List Nat) : List Nat :=
  (l.reverse.dropWhile isPyWhite).reverse

/-- Split on the semicolon byte (59), modelling Python `str.split(";")`:
always returns at least one (possibly empty) field. -/
def splitSemi : List Nat → List (List Nat)
  | [] => [[]]
  | b :: rest =>
    if b = 59 then [] :: splitSemi rest
    else
      match splitSemi rest with
      | [] => [[b]]
      | t :: ts => (b :: t) :: ts

/-- The payload slice of a raw line: `line.rstrip().split(";")[1:5]`
(line 59 for USB, line 66 for TCP). -/
def payloadOf (raw : List Nat) : List (List Nat) :=
  ((splitSemi (rstrip raw)).drop 1).take 4

/-- Convert every payload token with the float parser; any failure fails
the whole list, modelling `[float(value) for value in line]` (line 77). -/
def floatAll {V : Type} (toFloat : List Nat → Option V) : List (List Nat) → Option (List V)
  | [] => some []
  | t :: ts =>
    match toFloat t with
    | none => none
    | some v =>
      match floatAll toFloat ts with
      | none => none
      | some vs => some (v :: vs)

/-- The `FieldMap` of the source (`sonic_data_names`, lines 145-152):
short protocol key paired with fully-qualified publish name, in wire order. -/
def sonic_data_names : List (String × String) :=
  [("U", "sonic3d.uwind"), ("V", "sonic3d.vwind"),
   ("W", "sonic3d.wwind"), ("T", "sonic3d.temp")]

/-- The shared parsing tail of `read_and_parse_data` (lines 70-79): reject
an empty or short payload, convert every token to a float, and zip the
values positionally with the keys of `data_names`
(`dict(zip(data_names.keys(), values))`).  `none` models the raised
`ValueError`. -/
def read_and_parse_line {V : Type} (toFloat : List Nat → Option V)
    (data_names : List (String × String)) (raw : List Nat) :
    Option (List (String × V)) :=
  if payloadOf raw = [] ∨ (payloadOf raw).length < data_names.length then none
  else
    match floatAll toFloat (payloadOf raw) with
    | none => none
    | some values => some ((data_names.map Prod.fst).zip values)

/-- `read_and_parse_data` on the USB path (line 59 followed by 70-79):
the transport's `readline()` result is parsed directly. -/
def read_and_parse_data_usb {V : Type} (toFloat : List Nat → Option V)
    (data_names : List (String × String)) (rawLine : List Nat) :
    Option (List (String × V)) :=
  read_and_parse_line toFloat data_names rawLine

/-- `read_and_parse_data` on the TCP path (lines 60-79): frame one line out
of the buffer and the receive schedule, then parse it.  The outer `Option`
is `none` when framing never completes; otherwise the result records the
parse outcome (`none` = raised parse error) together with the buffer state
and unconsumed chunks.  The buffer is reassigned by the split on line 65
before parsing starts, so a parse failure leaves the already-advanced
buffer in place. -/
def read_and_parse_data_tcp {V : Type} (toFloat : List Nat → Option V)
    (data_names : List (String × String)) (buffer : List Nat)
    (chunks : List (List Nat)) :
    Option (Option (List (String × V)) × List Nat × List (List Nat)) :=
  (extractLine chunks buffer).map
    (fun t => (read_and_parse_line toFloat data_names t.1, t.2.1, t.2.2))

/-! ### TCP authentication handshake (`DeviceConnection.__init__`, lines 35-50) -/

/-- Byte list of a string (the wire protocol is ASCII text). -/
def strBytes (s : String) : List Nat := s.data.map Char.toNat

/-- ASCII lower-casing of one byte, modelling `str.lower()` on the
protocol's ASCII responses. -/
def lowerByte (b : Nat) : Nat := if 65 ≤ b ∧ b ≤ 90 then b + 32 else b

/-- ASCII lower-casing of a byte list. -/
def lowerBytes (l : List Nat) : List Nat := l.map lowerByte

/-- The required substring of the third handshake response (line 47). -/
def authNeedle : List Nat := strBytes "authentication successful"

/-- Whether the first list is an initial segment of the second. -/
def leadMatch : List Nat → List Nat → Bool
  | [], _ => true
  | _ :: _, [] => false
  | a :: l1, b :: l2 => a == b && leadMatch l1 l2

/-- Whether the first list occurs contiguously inside the second,
modelling the Python `in` test on byte strings / strings. -/
def hasSub : List Nat → List Nat → Bool
  | n, [] => leadMatch n []
  | n, b :: rest => leadMatch n (b :: rest) || hasSub n rest

/-- The TCP branch of `DeviceConnection.__init__` (lines 35-50): after the
two credential exchanges, the third receive `r3` must contain the
case-insensitive substring of `authNeedle`, else the constructor raises
`Exception("Authentication failed.")`.  On success the connection object
exists with its empty initial buffer; on failure no connection object is
produced, so no data read can be attempted on it.  `r1`, `r2` (the two
prompts) and the credentials are read and sent but never inspected, which
the unused parameters mirror. -/
def device_connection_init_tcp (r1 r2 r3 : List Nat)
    (username password : String) : Except String (List Nat) :=
  if hasSub authNeedle (lowerBytes r3) then Except.ok []
  else Except.error "Authentication failed."

/-! ### Publishing adapter (`publish_data`, lines 84-112)

Effects are modelled as a list of events in emission order.  `get_timestamp`
is called exactly once at line 85; the single captured value enters the
model as the parameter `ts`. -/

/-- A metadata value: the source puts both strings and the integer
timestamp into meta dictionaries. -/
inductive MVal where
  | s (v : String)
  | n (v : Nat)
deriving DecidableEq, Repr

/-- A published value: a parsed float or a status string. -/
inductive PubVal (V : Type) where
  | num (v : V)
  | str (v : String)
deriving DecidableEq, Repr

/-- One observable effect of the adapter or the loop: a log line, console
output (`print`), or a `plugin.publish` call with its optional timestamp
keyword. -/
inductive Event (V : Type) where
  | logWarning (msg : String)
  | logError (msg : String)
  | consoleOut (msg : String)
  | publish (nm : String) (value : PubVal V) (meta : List (String × MVal))
      (timestamp : Option Nat)
deriving DecidableEq, Repr

/-- Whether an event is a `plugin.publish` call. -/
def Event.isPub {V : Type} : Event V → Bool
  | .publish _ _ _ _ => true
  | _ => false

/-- The timestamp keyword carried by an event (`none` for non-publish
events and for publishes made without a timestamp argument). -/
def Event.tsOf {V : Type} : Event V → Option Nat
  | .publish _ _ _ t => t
  | _ => none

/-- The static `SensorMetadata` table (`sonic_meta`, lines 153-168): the
`units` and `description` inner tables are association lists whose lookup
can fail (a Python `KeyError`). -/
structure SensorMeta where
  connection : String
  sensor : String
  units : List (String × String)
  description : List (String × String)
deriving DecidableEq, Repr

/-- The single-quote character as a string (ASCII 39). -/
def sq : String := String.mk [Char.ofNat 39]

/-- The text of `f-string` formatting a `KeyError` carrying key `k`:
Python renders it as the repr of the key, i.e. the key in single quotes. -/
def keyErrStr (k : String) : String := sq ++ k ++ sq

/-- `dict.update`: existing keys are overwritten in place, new keys are
appended in their own order. -/
def updateMeta (base a : List (String × MVal)) : List (String × MVal) :=
  base.map (fun kv =>
    match a.lookup kv.1 with
    | some v => (kv.1, v)
    | none => kv) ++
  a.filter (fun kv => (base.lookup kv.1).isNone)

/-- Apply the optional `additional_meta` argument (lines 104-105);
a missing or empty dictionary is falsy and leaves the base untouched. -/
def metaWith (addl : Option (List (String × MVal)))
    (base : List (String × MVal)) : List (String × MVal) :=
  match addl with
  | none => base
  | some a => if a = [] then base else updateMeta base a

/-- The per-field metadata dictionary built at lines 97-103. -/
def baseMeta (u d nm sensor : String) : List (String × MVal) :=
  [("missing", MVal.s "-9999.0"), ("units", MVal.s u),
   ("description", MVal.s d), ("name", MVal.s nm), ("sensor", MVal.s sensor)]

/-- One iteration of the `for key, value in data.items()` loop of
`publish_data` (lines 93-112): a key absent from `data_names` is skipped;
otherwise the unit and description are looked up by publish name and the
field is published with the shared timestamp; a `KeyError` from either
lookup is caught and converted to a status publish plus a console line,
after which the loop moves on to the next field. -/
def publishField {V : Type} (ts : Nat) (data_names : List (String × String))
    (meta : SensorMeta) (addl : Option (List (String × MVal)))
    (kv : String × V) : List (Event V) :=
  match data_names.lookup kv.1 with
  | none => []
  | some nm =>
    match meta.units.lookup nm, meta.description.lookup nm with
    | some u, some d =>
      [Event.publish nm (PubVal.num kv.2)
        (metaWith addl (baseMeta u d nm meta.sensor)) (some ts)]
    | _, _ =>
      [Event.publish "status" (PubVal.str (keyErrStr nm)) [] none,
       Event.consoleOut ("Error: Missing key in meta data - " ++ keyErrStr nm)]

/-- The field loop of `publish_data` run over the whole record. -/
def publishEach {V : Type} (ts : Nat) (data_names : List (String × String))
    (meta : SensorMeta) (addl : Option (List (String × MVal))) :
    List (String × V) → List (Event V)
  | [] => []
  | kv :: rest =>
    publishField ts data_names meta addl kv ++
    publishEach ts data_names meta addl rest

/-- `publish_data` (lines 84-112): with an empty record, warn and emit the
single `NoData` status event whose metadata holds just the captured
timestamp (and no timestamp keyword); otherwise run the field loop. -/
def publish_data {V : Type} (ts : Nat) (data : List (String × V))
    (data_names : List (String × String)) (meta : SensorMeta)
    (addl : Option (List (String × MVal))) : List (Event V) :=
  if data.isEmpty then
    [Event.logWarning "No data to publish.",
     Event.publish "status" (PubVal.str "NoData") [("timestamp", MVal.n ts)] none]
  else publishEach ts data_names meta addl data

/-! ### Acquisition loop (`run_device_interface`, lines 114-129)

One iteration of the inner `while True` executes the `try` block (read,
parse, optional debug print, publish) and, if any exception is raised
anywhere inside it, falls into the `except` handler.  An iteration is
therefore modelled by the events the `try` block emitted before finishing
or failing, together with `none` (the block completed) or `some msg` (an
exception carrying text `msg` escaped the block). -/

/-- Process one iteration of the inner cycle: the emitted events, followed
on failure by the handler's log line and status publish (lines 126-129).
The handler always falls through to `continue`, so the step is total. -/
def innerCycleStep {V : Type} (a : List (Event V) × Option String) : List (Event V) :=
  a.1 ++
    match a.2 with
    | none => []
    | some m =>
      [Event.logError ("Error: " ++ m ++ " while reading data."),
       Event.publish "status" (PubVal.str m) [] none]

/-- The inner `while True` cycle of `run_device_interface` run over a
finite schedule of iteration outcomes: every iteration is handled and the
loop proceeds to the next one, whatever the outcome was. -/
def run_device_interface_inner {V : Type} :
    List (List (Event V) × Option String) → List (Event V)
  | [] => []
  | a :: rest => innerCycleStep a ++ run_device_interface_inner rest

/-- The iteration outcome produced by one read-and-publish attempt: a read
or parse exception first emits the `logging.error` of line 81 inside
`read_and_parse_data` and then escapes; a successful read emits the
adapter's events and completes. -/
def cycleAttempt {V : Type} (ts : Nat) (data_names : List (String × String))
    (meta : SensorMeta) :
    Except String (List (String × V)) → List (Event V) × Option String
  | .error m => ([Event.logError ("Error reading data: " ++ m)], some m)
  | .ok data => (publish_data ts data data_names meta none, none)

/-! ### Framing lemmas -/

theorem splitCRLF_append (a b l r : List Nat) (h : splitCRLF a = some (l, r)) :
    splitCRLF (a ++ b) = some (l, r ++ b) := by
  induction a generalizing l r with
  | nil => simp [splitCRLF] at h
  | cons x xs ih =>
    by_cases hc : x = 13 ∧ xs.head? = some 10
    · obtain ⟨hx, hh⟩ := hc
      subst hx
      cases xs with
      | nil => simp at hh
      | cons y t =>
        simp only [List.head?_cons, Option.some.injEq] at hh
        subst hh
        rw [splitCRLF, if_pos ⟨rfl, rfl⟩] at h
        simp only [List.tail_cons, Option.some.injEq, Prod.mk.injEq] at h
        obtain ⟨hl, hr⟩ := h
        subst hl; subst hr
        rw [List.cons_append, splitCRLF, if_pos ⟨rfl, by simp⟩]
        simp
    · rw [splitCRLF, if_neg hc] at h
      cases hsx : splitCRLF xs with
      | none => rw [hsx] at h; simp at h
      | some p =>
        rw [hsx] at h
        simp only [Option.map_some', Option.some.injEq] at h
        have hxs : xs ≠ [] := by
          intro he; rw [he] at hsx; simp [splitCRLF] at hsx
        have hc2 : ¬(x = 13 ∧ (xs ++ b).head? = some 10) := by
          intro ⟨h1, h2⟩
          apply hc
          refine ⟨h1, ?_⟩
          cases xs with
          | nil => exact absurd rfl hxs
          | cons z zs => simpa using h2
        injection h with h1 h2
        subst h1; subst h2
        rw [List.cons_append, splitCRLF, if_neg hc2,
          ih p.1 p.2 hsx]
        simp

theorem extractLine_sound (chunks : List (List Nat)) :
    ∀ (buf l buf2 : List Nat) (cs2 : List (List Nat)),
      extractLine chunks buf = some (l, buf2, cs2) →
      splitCRLF (buf ++ joinAll chunks) = some (l, buf2 ++ joinAll cs2) := by
  induction chunks with
  | nil =>
    intro buf l buf2 cs2 h
    rw [extractLine] at h
    cases hs : splitCRLF buf with
    | none => rw [hs] at h; simp at h
    | some p =>
      rw [hs] at h
      simp only [Option.map_some', Option.some.injEq, Prod.mk.injEq] at h
      obtain ⟨h1, h2, h3⟩ := h
      subst h1; subst h2; subst h3
      simpa [joinAll] using hs
  | cons c cs ih =>
    intro buf l buf2 cs2 h
    rw [extractLine] at h
    cases hs : splitCRLF buf with
    | none =>
      rw [hs] at h
      have := ih (buf ++ c) l buf2 cs2 h
      rw [joinAll, ← List.append_assoc]
      exact this
    | some p =>
      rw [hs] at h
      simp only [Option.some.injEq, Prod.mk.injEq] at h
      obtain ⟨h1, h2, h3⟩ := h
      subst h1; subst h2; subst h3
      exact splitCRLF_append buf (joinAll (c :: cs)) p.1 p.2 hs

theorem extractLine_complete (chunks : List (List Nat)) :
    ∀ (buf l r : List Nat),
      splitCRLF (buf ++ joinAll chunks) = some (l, r) →
      ∃ buf2 cs2, extractLine chunks buf = some (l, buf2, cs2) ∧
        buf2 ++ joinAll cs2 = r := by
  induction chunks with
  | nil =>
    intro buf l r h
    rw [joinAll, List.append_nil] at h
    exact ⟨r, [], by rw [extractLine, h]; rfl, by simp [joinAll]⟩
  | cons c cs ih =>
    intro buf l r h
    cases hs : splitCRLF buf with
    | none =>
      rw [joinAll, ← List.append_assoc] at h
      obtain ⟨buf2, cs2, h1, h2⟩ := ih (buf ++ c) l r h
      exact ⟨buf2, cs2, by rw [extractLine, hs]; exact h1, h2⟩
    | some p =>
      have := splitCRLF_append buf (joinAll (c :: cs)) p.1 p.2 hs
      rw [this] at h
      simp only [Option.some.injEq, Prod.mk.injEq] at h
      obtain ⟨h1, h2⟩ := h
      refine ⟨p.2, c :: cs, ?_, h2⟩
      rw [extractLine, hs]
      show some (p.1, p.2, c :: cs) = some (l, p.2, c :: cs)
      rw [h1]

/-- C2: for every byte stream and every cut of it into non-empty receive
chunks, the TCP line-framing step extracts the same line as when the whole
stream arrives in one chunk, and the retained bytes (buffer state plus
not-yet-received chunks, which the next extraction call will consume) are
exactly the bytes after the first terminator. -/
theorem frame_chunked_eq_whole (s : List Nat) (chunks : List (List Nat))
    (l r : List Nat) (hne : ∀ c ∈ chunks, c ≠ ([] : List Nat))
    (hjoin : joinAll chunks = s) (hterm : splitCRLF s = some (l, r)) :
    frameResult chunks = some (l, r) ∧ frameResult [s] = some (l, r) := by
  subst hjoin
  constructor
  · obtain ⟨buf2, cs2, h1, h2⟩ :=
      extractLine_complete chunks [] l r (by simpa using hterm)
    rw [frameResult, h1]
    simp [h2]
  · simp [frameResult, extractLine, splitCRLF, hterm, joinAll]

/-- C2 witness: the stream "ab\r\ncd" cut as "a" / "b\r" / "\nc" / "d"
frames to the line "ab" with "cd" retained, the same as in one chunk. -/
theorem frame_chunked_eq_whole_witness :
    frameResult [[97], [98, 13], [10, 99], [100]] = some ([97, 98], [99, 100]) ∧
    frameResult [[97, 98, 13, 10, 99, 100]] = some ([97, 98], [99, 100]) :=
  frame_chunked_eq_whole [97, 98, 13, 10, 99, 100]
    [[97], [98, 13], [10, 99], [100]] [97, 98] [99, 100]
    (by decide) (by decide) (by decide)

/-- C9: the framing loop does not detect a closed connection.  A `recv`
on a closed socket returns zero bytes; the loop of lines 62-63 appends the
empty chunk and re-tests, so as long as the buffer lacks the terminator it
makes no progress: after arbitrarily many zero-byte receives no line has
been extracted and no error has been raised.  The spec requires a
connection-closed failure here; the code spins instead. -/
theorem tcp_framing_spins_on_closed (buf : List Nat)
    (h : splitCRLF buf = none) :
    ∀ n : Nat, extractLine (List.replicate n ([] : List Nat)) buf = none := by
  intro n
  induction n with
  | zero => rw [List.replicate, extractLine, h]; rfl
  | succ m ih =>
    rw [List.replicate, extractLine, h, List.append_nil]
    exact ih

/-- C9 witness: with the single byte "S" buffered and five zero-byte
receives, the framing loop is still blocked with no error signalled. -/
theorem tcp_framing_spins_on_closed_witness :
    splitCRLF [83] = none ∧
    extractLine (List.replicate 5 ([] : List Nat)) [83] = none :=
  ⟨by decide, tcp_framing_spins_on_closed [83] (by decide) 5⟩

/-! ### Parsing lemmas -/

theorem floatAll_none {V : Type} (toFloat : List Nat → Option V)
    (ts : List (List Nat)) (t : List Nat) (ht : t ∈ ts)
    (hf : toFloat t = none) : floatAll toFloat ts = none := by
  induction ts with
  | nil => cases ht
  | cons s ss ih =>
    rw [floatAll]
    rcases List.mem_cons.mp ht with h | h
    · subst h
      rw [hf]
    · cases hs : toFloat s with
      | none => rfl
      | some v =>
        rw [ih h]

/-- C1: a line whose trimmed semicolon-split field list has an arbitrary
field 0 and float-parseable fields 1 through 4 parses to the record whose
keys are the `FieldMap` keys in order, zipped positionally with the four
parsed floats. -/
theorem parse_valid_line {V : Type} (toFloat : List Nat → Option V)
    (raw f0 f1 f2 f3 f4 : List Nat) (rest : List (List Nat))
    (v1 v2 v3 v4 : V)
    (hsplit : splitSemi (rstrip raw) = f0 :: f1 :: f2 :: f3 :: f4 :: rest)
    (h1 : toFloat f1 = some v1) (h2 : toFloat f2 = some v2)
    (h3 : toFloat f3 = some v3) (h4 : toFloat f4 = some v4) :
    read_and_parse_data_usb toFloat sonic_data_names raw =
      some [("U", v1), ("V", v2), ("W", v3), ("T", v4)] := by
  have hp : payloadOf raw = [f1, f2, f3, f4] := by
    rw [payloadOf, hsplit]
    rfl
  simp only [read_and_parse_data_usb, read_and_parse_line, hp]
  rw [if_neg (by simp [sonic_data_names])]
  simp [floatAll, h1, h2, h3, h4, sonic_data_names]

/-- C1 witness: the line "S;a;bb;ccc;dddd" with the token-length function
as float parser yields the record U=1, V=2, W=3, T=4. -/
theorem parse_valid_line_witness :
    read_and_parse_data_usb (fun l : List Nat => some l.length)
      sonic_data_names
      [83, 59, 97, 59, 98, 98, 59, 99, 99, 99, 59, 100, 100, 100, 100] =
      some [("U", 1), ("V", 2), ("W", 3), ("T", 4)] :=
  parse_valid_line (fun l : List Nat => some l.length)
    [83, 59, 97, 59, 98, 98, 59, 99, 99, 99, 59, 100, 100, 100, 100]
    [83] [97] [98, 98] [99, 99, 99] [100, 100, 100, 100] [] 1 2 3 4
    (by decide) rfl rfl rfl rfl

/-- C4: a line whose payload slice (fields 1 through 4 of the trimmed
split) is empty, shorter than the `FieldMap`, or contains a token the
float parser rejects, fails to parse: no record at all is produced. -/
theorem parse_invalid_line_fails {V : Type} (toFloat : List Nat → Option V)
    (raw : List Nat)
    (h : payloadOf raw = [] ∨
         (payloadOf raw).length < sonic_data_names.length ∨
         ∃ t ∈ payloadOf raw, toFloat t = none) :
    read_and_parse_line toFloat sonic_data_names raw = none := by
  rcases h with h | h | ⟨t, ht, hf⟩
  · rw [read_and_parse_line, if_pos (Or.inl h)]
  · rw [read_and_parse_line, if_pos (Or.inr h)]
  · by_cases hc : payloadOf raw = [] ∨
        (payloadOf raw).length < sonic_data_names.length
    · rw [read_and_parse_line, if_pos hc]
    · rw [read_and_parse_line, if_neg hc, floatAll_none toFloat _ t ht hf]

/-- C4 witness: the line "S;1;2;3;4" under a float parser rejecting every
token yields no record. -/
theorem parse_invalid_line_fails_witness :
    read_and_parse_line (fun _ => (none : Option Nat)) sonic_data_names
      [83, 59, 49, 59, 50, 59, 51, 59, 52] = none :=
  parse_invalid_line_fails (fun _ => (none : Option Nat))
    [83, 59, 49, 59, 50, 59, 51, 59, 52]
    (Or.inr (Or.inr ⟨[49], by decide, rfl⟩))

/-- C10: when the TCP read raises a parse error, the offending line has
already been cut out of the buffer (the split at line 65 reassigns the
buffer before any parsing), so the retained bytes are exactly the bytes
after the first terminator of the received data, and the failed line is
never re-read. -/
theorem tcp_error_consumes_line {V : Type} (toFloat : List Nat → Option V)
    (buffer : List Nat) (chunks : List (List Nat)) (l buf2 : List Nat)
    (cs2 : List (List Nat))
    (hext : extractLine chunks buffer = some (l, buf2, cs2))
    (hparse : read_and_parse_line toFloat sonic_data_names l = none) :
    read_and_parse_data_tcp toFloat sonic_data_names buffer chunks =
      some (none, buf2, cs2) ∧
    splitCRLF (buffer ++ joinAll chunks) = some (l, buf2 ++ joinAll cs2) := by
  constructor
  · rw [read_and_parse_data_tcp, hext]
    simp [hparse]
  · exact extractLine_sound chunks buffer l buf2 cs2 hext

/-- C10 witness: with "S;x\r\nNEXT" buffered and a rejecting float parser,
the call fails but the buffer has advanced to "NEXT". -/
theorem tcp_error_consumes_line_witness :
    read_and_parse_data_tcp (fun _ => (none : Option Nat)) sonic_data_names
      [83, 59, 120, 13, 10, 78, 69, 88, 84] [] =
      some (none, [78, 69, 88, 84], []) ∧
    splitCRLF ([83, 59, 120, 13, 10, 78, 69, 88, 84] ++ joinAll []) =
      some ([83, 59, 120], [78, 69, 88, 84] ++ joinAll []) :=
  tcp_error_consumes_line (fun _ => (none : Option Nat))
    [83, 59, 120, 13, 10, 78, 69, 88, 84] [] [83, 59, 120] [78, 69, 88, 84]
    [] (by decide) (by decide)

/-! ### Handshake lemmas -/

theorem leadMatch_iff (n : List Nat) :
    ∀ h : List Nat, leadMatch n h = true ↔ ∃ t, h = n ++ t := by
  induction n with
  | nil => intro h; simp [leadMatch]
  | cons a l1 ih =>
    intro h
    cases h with
    | nil => simp [leadMatch]
    | cons b l2 =>
      rw [leadMatch]
      simp only [Bool.and_eq_true, beq_iff_eq]
      rw [ih l2]
      constructor
      · rintro ⟨hab, t, ht⟩
        exact ⟨t, by rw [List.cons_append, hab, ht]⟩
      · rintro ⟨t, ht⟩
        rw [List.cons_append] at ht
        injection ht with hb hrest
        exact ⟨hb.symm, t, hrest⟩

theorem hasSub_iff (n : List Nat) :
    ∀ h : List Nat, hasSub n h = true ↔ ∃ s t, h = s ++ n ++ t := by
  intro h
  induction h with
  | nil =>
    rw [hasSub, leadMatch_iff]
    constructor
    · rintro ⟨t, ht⟩
      exact ⟨[], t, by simpa using ht⟩
    · rintro ⟨s, t, ht⟩
      obtain ⟨hs, hn, htt⟩ : s = [] ∧ n = [] ∧ t = [] := by
        simpa using ht.symm
      exact ⟨[], by simp [hn]⟩
  | cons b rest ih =>
    rw [hasSub]
    simp only [Bool.or_eq_true]
    rw [leadMatch_iff, ih]
    constructor
    · rintro (⟨t, ht⟩ | ⟨s, t, ht⟩)
      · exact ⟨[], t, by simpa using ht⟩
      · exact ⟨b :: s, t, by rw [ht]; rfl⟩
    · rintro ⟨s, t, ht⟩
      cases s with
      | nil =>
        left
        exact ⟨t, by simpa using ht⟩
      | cons s0 s1 =>
        right
        injection ht with h1 h2
        exact ⟨s1, t, h2⟩

/-- C5: TCP transport establishment succeeds exactly when the third
handshake response contains the case-insensitive substring
"authentication successful"; every final response lacking it makes the
constructor raise the authentication error, so no connection object (and
hence no data read) ever comes into being. -/
theorem tcp_auth_gate (r1 r2 r3 : List Nat) (u p : String) :
    (device_connection_init_tcp r1 r2 r3 u p = Except.ok [] ↔
      ∃ s t, lowerBytes r3 = s ++ authNeedle ++ t) ∧
    ((¬ ∃ s t, lowerBytes r3 = s ++ authNeedle ++ t) →
      device_connection_init_tcp r1 r2 r3 u p =
        Except.error "Authentication failed.") := by
  have hiff := hasSub_iff authNeedle (lowerBytes r3)
  constructor
  · rw [device_connection_init_tcp]
    by_cases hb : hasSub authNeedle (lowerBytes r3) = true
    · rw [if_pos hb]
      exact iff_of_true rfl (hiff.mp hb)
    · rw [if_neg hb]
      exact iff_of_false (by simp) (fun hex => hb (hiff.mpr hex))
  · intro hex
    rw [device_connection_init_tcp, if_neg (fun hb => hex (hiff.mp hb))]

/-- C5 witness: the final response "access denied" is rejected with the
authentication error. -/
theorem tcp_auth_gate_witness :
    device_connection_init_tcp (strBytes "login:") (strBytes "password:")
      (strBytes "access denied") "user" "pass" =
      Except.error "Authentication failed." :=
  (tcp_auth_gate (strBytes "login:") (strBytes "password:")
      (strBytes "access denied") "user" "pass").2
    (fun hex =>
      absurd ((hasSub_iff authNeedle
        (lowerBytes (strBytes "access denied"))).mpr hex) (by decide))

/-! ### Publisher lemmas -/

/-- C6: handed an empty record, the adapter emits exactly one publish
call: the "NoData" status event carrying only the captured timestamp in
its metadata (and no timestamp keyword); no field publish is made. -/
theorem publish_empty_nodata {V : Type} (ts : Nat)
    (data_names : List (String × String)) (meta : SensorMeta)
    (addl : Option (List (String × MVal))) :
    publish_data ts ([] : List (String × V)) data_names meta addl =
      [Event.logWarning "No data to publish.",
       Event.publish "status" (PubVal.str "NoData")
         [("timestamp", MVal.n ts)] none] ∧
    (publish_data ts ([] : List (String × V)) data_names meta addl).filter
        Event.isPub =
      [Event.publish "status" (PubVal.str "NoData")
         [("timestamp", MVal.n ts)] none] :=
  ⟨rfl, rfl⟩

theorem publishField_ts {V : Type} (ts : Nat) (dn : List (String × String))
    (meta : SensorMeta) (addl : Option (List (String × MVal)))
    (kv : String × V) (e : Event V)
    (he : e ∈ publishField ts dn meta addl kv) :
    Event.tsOf e = none ∨ Event.tsOf e = some ts := by
  cases hl : dn.lookup kv.1 with
  | none =>
    simp only [publishField, hl] at he
    cases he
  | some nm =>
    simp only [publishField, hl] at he
    cases hu : meta.units.lookup nm with
    | none =>
      simp only [hu] at he
      simp only [List.mem_cons, List.not_mem_nil, or_false] at he
      rcases he with rfl | rfl
      · exact Or.inl rfl
      · exact Or.inl rfl
    | some u =>
      simp only [hu] at he
      cases hd : meta.description.lookup nm with
      | none =>
        simp only [hd] at he
        simp only [List.mem_cons, List.not_mem_nil, or_false] at he
        rcases he with rfl | rfl
        · exact Or.inl rfl
        · exact Or.inl rfl
      | some d =>
        simp only [hd] at he
        simp only [List.mem_singleton] at he
        subst he
        exact Or.inr rfl

theorem publishEach_ts {V : Type} (ts : Nat) (dn : List (String × String))
    (meta : SensorMeta) (addl : Option (List (String × MVal)))
    (data : List (String × V)) :
    ∀ e ∈ publishEach ts dn meta addl data,
      Event.tsOf e = none ∨ Event.tsOf e = some ts := by
  induction data with
  | nil =>
    intro e he
    cases he
  | cons kv rest ih =>
    intro e he
    rw [publishEach] at he
    rcases List.mem_append.mp he with h | h
    · exact publishField_ts ts dn meta addl kv e h
    · exact ih e h

/-- C7: every publish event of one adapter call that carries a timestamp
keyword carries the single timestamp captured at the start of the call;
the timestamp is never re-sampled per field. -/
theorem publish_shared_timestamp {V : Type} (ts : Nat)
    (data : List (String × V)) (dn : List (String × String))
    (meta : SensorMeta) (addl : Option (List (String × MVal)))
    (nm : String) (val : PubVal V) (m : List (String × MVal)) (t : Nat)
    (hmem : Event.publish nm val m (some t) ∈
      publish_data ts data dn meta addl) :
    t = ts := by
  cases data with
  | nil => simp [publish_data] at hmem
  | cons kv rest =>
    have h2 : Event.publish nm val m (some t) ∈
        publishEach ts dn meta addl (kv :: rest) := by
      simpa [publish_data] using hmem
    rcases publishEach_ts ts dn meta addl (kv :: rest) _ h2 with h | h
    · simp [Event.tsOf] at h
    · simpa [Event.tsOf] using h

/-- C7 witness: the single field of a one-field record is published with
the captured timestamp 7. -/
theorem publish_shared_timestamp_witness :
    Event.publish "n1" (PubVal.num (5 : Int))
        (baseMeta "u1" "d1" "n1" "sens") (some 7) ∈
      publish_data 7 [("U", (5 : Int))] [("U", "n1")]
        ⟨"tcp", "sens", [("n1", "u1")], [("n1", "d1")]⟩ none ∧
    (7 : Nat) = 7 :=
  ⟨by decide,
   publish_shared_timestamp 7 [("U", (5 : Int))] [("U", "n1")]
     ⟨"tcp", "sens", [("n1", "u1")], [("n1", "d1")]⟩ none "n1"
     (PubVal.num 5) (baseMeta "u1" "d1" "n1" "sens") 7 (by decide)⟩

theorem publishEach_append {V : Type} (ts : Nat)
    (dn : List (String × String)) (meta : SensorMeta)
    (addl : Option (List (String × MVal))) (a b : List (String × V)) :
    publishEach ts dn meta addl (a ++ b) =
      publishEach ts dn meta addl a ++ publishEach ts dn meta addl b := by
  induction a with
  | nil => rfl
  | cons kv rest ih =>
    rw [List.cons_append, publishEach, publishEach, ih, List.append_assoc]

/-- C8: when the unit or description lookup for one field raises a
`KeyError`, the adapter publishes the error text on the status channel and
prints it, and the fields after the failing one are still processed and
published exactly as they would have been: one field's metadata failure
never aborts the rest of the record. -/
theorem publish_meta_failure_recovers {V : Type} (ts : Nat)
    (dn : List (String × String)) (meta : SensorMeta)
    (addl : Option (List (String × MVal))) (pre post : List (String × V))
    (k : String) (v : V) (nm : String)
    (hk : dn.lookup k = some nm)
    (hfail : meta.units.lookup nm = none ∨
      meta.description.lookup nm = none) :
    publish_data ts (pre ++ (k, v) :: post) dn meta addl =
      publishEach ts dn meta addl pre ++
      ([Event.publish "status" (PubVal.str (keyErrStr nm)) [] none,
        Event.consoleOut
          ("Error: Missing key in meta data - " ++ keyErrStr nm)]) ++
      publishEach ts dn meta addl post := by
  have hne : (pre ++ (k, v) :: post).isEmpty = false := by
    cases pre <;> rfl
  rw [publish_data, if_neg (by simp [hne])]
  rw [publishEach_append ts dn meta addl pre ((k, v) :: post), publishEach]
  have hf : publishField ts dn meta addl ((k, v) : String × V) =
      [Event.publish "status" (PubVal.str (keyErrStr nm)) [] none,
       Event.consoleOut
         ("Error: Missing key in meta data - " ++ keyErrStr nm)] := by
    rcases hfail with hu | hd
    · simp [publishField, hk, hu]
    · cases hu2 : meta.units.lookup nm with
      | none => simp [publishField, hk, hu2]
      | some u => simp [publishField, hk, hu2, hd]
  rw [hf, List.append_assoc]

/-- C8 witness: in a two-field record whose first field has no unit entry,
the first field yields the status error events and the second field is
still published. -/
theorem publish_meta_failure_recovers_witness :
    publish_data 7 [("U", (1 : Int)), ("V", (2 : Int))]
      [("U", "n1"), ("V", "n2")]
      ⟨"tcp", "sens", [("n2", "u2")], [("n1", "d1"), ("n2", "d2")]⟩ none =
      publishEach 7 [("U", "n1"), ("V", "n2")]
        ⟨"tcp", "sens", [("n2", "u2")], [("n1", "d1"), ("n2", "d2")]⟩
        none [] ++
      ([Event.publish "status" (PubVal.str (keyErrStr "n1")) [] none,
        Event.consoleOut
          ("Error: Missing key in meta data - " ++ keyErrStr "n1")]) ++
      publishEach 7 [("U", "n1"), ("V", "n2")]
        ⟨"tcp", "sens", [("n2", "u2")], [("n1", "d1"), ("n2", "d2")]⟩
        none [("V", (2 : Int))] :=
  publish_meta_failure_recovers 7 [("U", "n1"), ("V", "n2")]
    ⟨"tcp", "sens", [("n2", "u2")], [("n1", "d1"), ("n2", "d2")]⟩ none
    [] [("V", (2 : Int))] "U" (1 : Int) "n1" (by decide)
    (Or.inl (by decide))

/-! ### Acquisition-loop lemma -/

/-- C3: an iteration of the inner cycle whose try-block raises an
exception with text m — whether from the read, the parse or the publish
step — contributes exactly its partial events, the handler's log line and
the status publish carrying the error text, after which the loop goes on
to process every later iteration unchanged: no exception exits the inner
cycle. -/
theorem inner_cycle_survives_exception {V : Type}
    (pre post : List (List (Event V) × Option String))
    (evs : List (Event V)) (m : String) :
    run_device_interface_inner (pre ++ (evs, some m) :: post) =
      run_device_interface_inner pre ++
      (evs ++
        [Event.logError ("Error: " ++ m ++ " while reading data."),
         Event.publish "status" (PubVal.str m) [] none]) ++
      run_device_interface_inner post := by
  induction pre with
  | nil => simp [run_device_interface_inner, innerCycleStep]
  | cons a rest ih =>
    rw [List.cons_append, run_device_interface_inner, ih,
      run_device_interface_inner]
    simp [List.append_assoc]

end Sonic3D
